import Mathlib

/-!
Verification of the LeaveFlow leave-request management application.

The embedding below translates the data model from the Drizzle schema
(shared/schema.ts, database_backup.sql) and the storage operations from
server/storage.ts into Lean.  The relational store is a record of row
lists; SQL inner joins become flatMap over matching rows, SQL equality
on nullable columns is three-valued (NULL never compares equal), and
ORDER BY ... DESC is modelled with mergeSort on the timestamp key.
Timestamps are natural numbers (milliseconds).
-/

namespace LeaveFlow

/-- roleEnum from the schema: student, teacher, hod, admin. -/
inductive Role
  | student
  | teacher
  | hod
  | admin
deriving DecidableEq, Repr

/-- departmentEnum from the schema: CSE, AIDS, ECE, EEE, MECH, CIVIL. -/
inductive Department
  | CSE
  | AIDS
  | ECE
  | EEE
  | MECH
  | CIVIL
deriving DecidableEq, Repr

/-- leaveTypeEnum from the schema: sick, personal, emergency, medical. -/
inductive LeaveType
  | sick
  | personal
  | emergency
  | medical
deriving DecidableEq, Repr

/-- leaveStatusEnum from the schema: pending, approved, rejected. -/
inductive LeaveStatus
  | pending
  | approved
  | rejected
deriving DecidableEq, Repr

/-- A row of the users table (shared/schema.ts).  department, year,
sinNumber and email are nullable columns. -/
structure User where
  id : String
  username : String
  password : String
  name : String
  role : Role
  department : Option Department
  year : Option Nat
  sinNumber : Option String
  email : Option String
  createdAt : Nat
deriving DecidableEq, Repr

/-- A row of the leave_requests table.  reviewedBy and reviewedAt are
nullable; status defaults to pending at insertion. -/
structure LeaveRequest where
  id : String
  studentId : String
  type : LeaveType
  fromDate : Nat
  toDate : Nat
  reason : String
  status : LeaveStatus
  reviewedBy : Option String
  reviewedAt : Option Nat
  submittedAt : Nat
deriving DecidableEq, Repr

/-- A row of the department_assignments table.  department and year are
NOT NULL; the advisor and hod references are nullable. -/
structure DepartmentAssignment where
  id : String
  department : Department
  year : Nat
  classAdvisorId : Option String
  hodId : Option String
deriving DecidableEq, Repr

/-- A row of the activity_logs table (database_backup.sql): the
department and year columns are nullable snapshots of the student. -/
structure ActivityLog where
  id : String
  leaveRequestId : String
  actionBy : String
  action : LeaveStatus
  department : Option Department
  year : Option Nat
  actionAt : Nat
deriving DecidableEq, Repr

/-- The relational store: one list of rows per table. -/
structure DB where
  users : List User
  leaveRequests : List LeaveRequest
  departmentAssignments : List DepartmentAssignment
  activityLogs : List ActivityLog
deriving DecidableEq, Repr

/-- The empty store. -/
def emptyDB : DB := ⟨[], [], [], []⟩

/-- SQL equality on nullable columns: NULL compares equal to nothing,
not even to NULL. -/
def sqlEqOpt {α : Type} [BEq α] : Option α → Option α → Bool
  | some a, some b => a == b
  | _, _ => false

/-- DatabaseStorage.getUser: first users row whose id matches. -/
def getUser (db : DB) (id : String) : Option User :=
  (db.users.filter (fun u => u.id == id)).head?

/-- The inner join of leave_requests with users on
leaveRequests.studentId = users.id, used by every reviewer-facing query
in storage.ts. -/
def joinWithStudent (db : DB) : List (LeaveRequest × User) :=
  db.leaveRequests.flatMap (fun lr =>
    (db.users.filter (fun u => lr.studentId == u.id)).map (fun u => (lr, u)))

/-- ORDER BY leaveRequests.submittedAt DESC on joined rows. -/
def submittedAtDesc (a b : LeaveRequest × User) : Bool :=
  b.1.submittedAt ≤ a.1.submittedAt

/-- The department_assignments rows whose classAdvisorId equals the
given reviewer id (NULL advisor matches nothing). -/
def teacherAssignments (db : DB) (reviewerId : String) : List DepartmentAssignment :=
  db.departmentAssignments.filter (fun a => a.classAdvisorId == some reviewerId)

/-- One disjunct of the teacher branch WHERE clause: the student row
matches the assignment on (department, year); a student with NULL
department or year matches nothing. -/
def matchesAssignment (u : User) (a : DepartmentAssignment) : Bool :=
  sqlEqOpt u.department (some a.department) && sqlEqOpt u.year (some a.year)

/-- DatabaseStorage.getPendingLeaveRequestsForReviewer (storage.ts
lines 110-206): looks up the reviewer, dispatches on role (admin sees
every pending request; hod filters by the student department equal to
the reviewer department; teacher filters by membership in one of the
advisor assignments, returning early with [] when there are none), and
any other role or unknown reviewer yields []. -/
def getPendingLeaveRequestsForReviewer (db : DB) (reviewerId : String) :
    List (LeaveRequest × User) :=
  match getUser db reviewerId with
  | none => []
  | some reviewer =>
    if reviewer.role = Role.admin then
      ((joinWithStudent db).filter
        (fun p => p.1.status == LeaveStatus.pending)).mergeSort submittedAtDesc
    else if reviewer.role = Role.hod then
      ((joinWithStudent db).filter
        (fun p => p.1.status == LeaveStatus.pending
          && sqlEqOpt p.2.department reviewer.department)).mergeSort submittedAtDesc
    else if reviewer.role = Role.teacher then
      let assignments := teacherAssignments db reviewerId
      if assignments.isEmpty then []
      else
        ((joinWithStudent db).filter
          (fun p => p.1.status == LeaveStatus.pending
            && assignments.any (matchesAssignment p.2))).mergeSort submittedAtDesc
    else []

/-- JavaScript truthiness of the nullable year column inside the guard
request and student.department and student.year of storage.ts line 236:
NULL and 0 are falsy, every other number is truthy. -/
def jsTruthyYear : Option Nat → Bool
  | none => false
  | some n => n != 0

/-- The SET clause of the UPDATE in updateLeaveRequestStatus: status,
reviewedBy and reviewedAt are overwritten on every row whose id
matches. -/
def applyStatusUpdate (id : String) (status : LeaveStatus) (reviewerId : String)
    (now : Nat) (lr : LeaveRequest) : LeaveRequest :=
  if lr.id == id then
    { lr with status := status, reviewedBy := some reviewerId, reviewedAt := some now }
  else lr

/-- DatabaseStorage.updateLeaveRequestStatus (storage.ts lines
208-247): select the request joined with its student (LIMIT 1); if the
join is empty return undefined leaving the store untouched; otherwise
update the matching rows, and when the returned row is truthy and the
student has a truthy department and year, insert one activity_logs row
snapshotting them.  now is the clock reading and logId the fresh id the
store generates for the inserted log row. -/
def updateLeaveRequestStatus (db : DB) (now : Nat) (logId : String)
    (id : String) (status : LeaveStatus) (reviewerId : String) :
    Option LeaveRequest × DB :=
  match ((joinWithStudent db).filter (fun p => p.1.id == id)).head? with
  | none => (none, db)
  | some (_, student) =>
    let newRequests := db.leaveRequests.map (applyStatusUpdate id status reviewerId now)
    let updated := (newRequests.filter (fun lr => lr.id == id)).head?
    let db1 : DB := { db with leaveRequests := newRequests }
    if updated.isSome && student.department.isSome && jsTruthyYear student.year then
      (updated, { db1 with activityLogs := db1.activityLogs ++
        [{ id := logId, leaveRequestId := id, actionBy := reviewerId, action := status,
           department := student.department, year := student.year, actionAt := now }] })
    else (updated, db1)

/-- ORDER BY leaveRequests.reviewedAt DESC: Postgres places NULLs first
under DESC. -/
def reviewedAtDesc (a b : LeaveRequest × User) : Bool :=
  match a.1.reviewedAt, b.1.reviewedAt with
  | none, _ => true
  | some _, none => false
  | some x, some y => y ≤ x

/-- DatabaseStorage.getRecentLeaveRequests (storage.ts lines 249-281):
requests the reviewer personally reviewed, submitted within the given
number of days, newest review first.  now is the clock reading in
milliseconds. -/
def getRecentLeaveRequests (db : DB) (now : Nat) (reviewerId : String)
    (days : Nat) : List (LeaveRequest × User) :=
  match getUser db reviewerId with
  | none => []
  | some _ =>
    let dateThreshold := now - days * 86400000
    ((joinWithStudent db).filter (fun p =>
      dateThreshold ≤ p.1.submittedAt && p.1.reviewedBy == some reviewerId)).mergeSort
      reviewedAtDesc

/-- DatabaseStorage.createActivityLog (storage.ts lines 350-356):
insert one row into activity_logs. -/
def createActivityLog (db : DB) (log : ActivityLog) : ActivityLog × DB :=
  (log, { db with activityLogs := db.activityLogs ++ [log] })

/-- The row shape returned by getActivityLogsForReviewer: the log, the
joined leave request, the joined acting user, and the student fetched
per row with getUser (the code asserts it non-null but embeds whatever
getUser returned). -/
structure EnrichedLog where
  log : ActivityLog
  leaveRequest : LeaveRequest
  actionByUser : User
  student : Option User
deriving DecidableEq, Repr

/-- The inner join of activity_logs with leave_requests (on
leaveRequestId) and users (on actionBy) used by the hod and teacher
branches of getActivityLogsForReviewer. -/
def joinLogs (db : DB) : List (ActivityLog × LeaveRequest × User) :=
  db.activityLogs.flatMap (fun al =>
    (db.leaveRequests.filter (fun lr => al.leaveRequestId == lr.id)).flatMap (fun lr =>
      (db.users.filter (fun u => al.actionBy == u.id)).map (fun u => (al, lr, u))))

/-- ORDER BY activityLogs.actionAt DESC. -/
def actionAtDesc (a b : ActivityLog × LeaveRequest × User) : Bool :=
  b.1.actionAt ≤ a.1.actionAt

/-- Enrich a joined log row with the student of its leave request,
fetched with getUser (storage.ts lines 476-485). -/
def enrichLog (db : DB) (t : ActivityLog × LeaveRequest × User) : EnrichedLog :=
  { log := t.1, leaveRequest := t.2.1, actionByUser := t.2.2,
    student := getUser db t.2.1.studentId }

/-- DatabaseStorage.getActivityLogsForReviewer (storage.ts lines
358-488).  The admin branch (lines 364-416) joins the users table a
second time with no alias, once on leaveRequests.studentId and once on
activityLogs.actionBy; the query layer rejects a duplicate unaliased
table, so that branch raises instead of returning rows.  The hod branch
filters logs by the reviewer department, the teacher branch by the
advisor assignments (empty list when there are none), other roles and
unknown reviewers get []. -/
def getActivityLogsForReviewer (db : DB) (reviewerId : String) :
    Except String (List EnrichedLog) :=
  match getUser db reviewerId with
  | none => .ok []
  | some reviewer =>
    if reviewer.role = Role.admin then
      .error "alias users is already used in this query"
    else if reviewer.role = Role.hod then
      .ok ((((joinLogs db).filter (fun t =>
        sqlEqOpt t.1.department reviewer.department)).mergeSort actionAtDesc).map
        (enrichLog db))
    else if reviewer.role = Role.teacher then
      let assignments := teacherAssignments db reviewerId
      if assignments.isEmpty then .ok []
      else
        .ok ((((joinLogs db).filter (fun t => assignments.any (fun a =>
          sqlEqOpt t.1.department (some a.department)
            && sqlEqOpt t.1.year (some a.year)))).mergeSort actionAtDesc).map
          (enrichLog db))
    else .ok []

/-- createLeaveRequest as reachable through POST /api/leave-requests:
insertLeaveRequestSchema omits id, submittedAt, status, reviewedBy and
reviewedAt, so the inserted row takes the column defaults (status
pending, reviewers NULL, submittedAt now) and a fresh id. -/
def createLeaveRequestApi (db : DB) (now : Nat) (newId : String)
    (studentId : String) (type : LeaveType) (fromDate toDate : Nat)
    (reason : String) : LeaveRequest × DB :=
  let lr : LeaveRequest :=
    { id := newId, studentId := studentId, type := type, fromDate := fromDate,
      toDate := toDate, reason := reason, status := LeaveStatus.pending,
      reviewedBy := none, reviewedAt := none, submittedAt := now }
  (lr, { db with leaveRequests := db.leaveRequests ++ [lr] })

/-- Outcome of a route handler: an HTTP error status or a payload. -/
inductive RouteResult (α : Type) where
  | denied (code : Nat)
  | notFound
  | ok (a : α)
deriving DecidableEq, Repr

/-- The role guard shared by the three reviewer routes in routes.ts:
["teacher", "hod"].includes(req.user?.role). -/
def reviewerRoleAllowed (r : Role) : Bool :=
  r == Role.teacher || r == Role.hod

/-- GET /api/leave-requests/pending: 403 unless the session user exists
and has role teacher or hod, else delegate to the resolver. -/
def routePendingRequests (db : DB) (sessionUser : Option User) :
    RouteResult (List (LeaveRequest × User)) :=
  match sessionUser with
  | none => .denied 403
  | some u =>
    if reviewerRoleAllowed u.role then
      .ok (getPendingLeaveRequestsForReviewer db u.id)
    else .denied 403

/-- GET /api/leave-requests/recent: same guard, delegating to
getRecentLeaveRequests with days fixed to 7. -/
def routeRecentRequests (db : DB) (now : Nat) (sessionUser : Option User) :
    RouteResult (List (LeaveRequest × User)) :=
  match sessionUser with
  | none => .denied 403
  | some u =>
    if reviewerRoleAllowed u.role then
      .ok (getRecentLeaveRequests db now u.id 7)
    else .denied 403

/-- PATCH /api/leave-requests/:id/status: 403 unless teacher or hod;
the body must parse as status approved or rejected (z.enum), a pending
body is rejected before any store access; a missing request maps to
404. -/
def routePatchStatus (db : DB) (now : Nat) (logId : String)
    (sessionUser : Option User) (reqId : String) (status : LeaveStatus) :
    RouteResult LeaveRequest × DB :=
  match sessionUser with
  | none => (.denied 403, db)
  | some u =>
    if reviewerRoleAllowed u.role then
      if status = LeaveStatus.pending then (.denied 400, db)
      else
        let res := updateLeaveRequestStatus db now logId reqId status u.id
        (match res.1 with
         | none => .notFound
         | some r => .ok r, res.2)
    else (.denied 403, db)

/-- One observable store transition through the HTTP API, as far as the
leave_requests table is concerned.  create and patch are the two routes
that write it; admin covers every other route (user management,
department assignments, activity-log reads), none of which writes
leave_requests.  Leave-request ids are generated by the primary-key
default, so a created id is fresh. -/
inductive ApiStep : DB → DB → Prop
  | create (db : DB) (now : Nat) (newId studentId : String) (type : LeaveType)
      (fromDate toDate : Nat) (reason : String)
      (hfresh : ∀ lr ∈ db.leaveRequests, lr.id ≠ newId) :
      ApiStep db (createLeaveRequestApi db now newId studentId type fromDate
        toDate reason).2
  | patch (db : DB) (now : Nat) (logId : String) (sessionUser : Option User)
      (reqId : String) (status : LeaveStatus) :
      ApiStep db (routePatchStatus db now logId sessionUser reqId status).2
  | admin (db : DB) (users1 : List User) (assignments1 : List DepartmentAssignment)
      (logs1 : List ActivityLog) :
      ApiStep db ⟨users1, db.leaveRequests, assignments1, logs1⟩

/-- A store reachable from the empty store through the API. -/
def Reachable (db : DB) : Prop :=
  Relation.ReflTransGen ApiStep emptyDB db

/-- The review invariant of the spec: reviewedBy and reviewedAt are
NULL exactly on pending requests. -/
def ReviewInvariant (db : DB) : Prop :=
  ∀ lr ∈ db.leaveRequests,
    (lr.status = LeaveStatus.pending ↔ lr.reviewedBy = none ∧ lr.reviewedAt = none)

/-- No API transition moves any request back to pending. -/
def NoRevert (db db1 : DB) : Prop :=
  ∀ lr ∈ db.leaveRequests, lr.status ≠ LeaveStatus.pending →
    ∀ lr1 ∈ db1.leaveRequests, lr1.id = lr.id → lr1.status ≠ LeaveStatus.pending

/-- Distinct leave_requests rows carry distinct primary keys. -/
def UniqueIds (db : DB) : Prop :=
  db.leaveRequests.Pairwise (fun a b => a.id ≠ b.id)

/-! ### Concrete rows used by witnesses and counterexamples -/

/-- A class advisor for (CSE, 3). -/
def tAdvisor : User :=
  { id := "t1", username := "teacher1", password := "p", name := "John Teacher",
    role := Role.teacher, department := some Department.CSE, year := none,
    sinNumber := none, email := none, createdAt := 0 }

/-- A CSE year-3 student. -/
def csStudent : User :=
  { id := "s1", username := "E23CS032", password := "p", name := "Student One",
    role := Role.student, department := some Department.CSE, year := some 3,
    sinNumber := some "E23CS032", email := none, createdAt := 0 }

/-- The hod of CSE. -/
def hodUser : User :=
  { id := "h1", username := "hod1", password := "p", name := "Nandhini",
    role := Role.hod, department := some Department.CSE, year := none,
    sinNumber := none, email := none, createdAt := 0 }

/-- The administrator account. -/
def adminUser : User :=
  { id := "a1", username := "admin", password := "p", name := "Sys Admin",
    role := Role.admin, department := none, year := none, sinNumber := none,
    email := none, createdAt := 0 }

/-- The (CSE, 3) assignment advised by tAdvisor. -/
def cseAssignment : DepartmentAssignment :=
  { id := "da1", department := Department.CSE, year := 3,
    classAdvisorId := some "t1", hodId := some "h1" }

/-- A pending request of csStudent. -/
def pendingRequest : LeaveRequest :=
  { id := "r1", studentId := "s1", type := LeaveType.sick, fromDate := 100,
    toDate := 200, reason := "fever", status := LeaveStatus.pending,
    reviewedBy := none, reviewedAt := none, submittedAt := 50 }

/-- A store holding the four users, one assignment and one pending
request. -/
def sampleDB : DB :=
  ⟨[tAdvisor, csStudent, hodUser, adminUser], [pendingRequest], [cseAssignment], []⟩

/-- A student with no recorded department. -/
def noDeptStudent : User :=
  { id := "s2", username := "stray", password := "p", name := "No Dept",
    role := Role.student, department := none, year := some 2, sinNumber := none,
    email := none, createdAt := 0 }

/-- A pending request of noDeptStudent. -/
def noDeptRequest : LeaveRequest :=
  { id := "r2", studentId := "s2", type := LeaveType.personal, fromDate := 10,
    toDate := 20, reason := "travel", status := LeaveStatus.pending,
    reviewedBy := none, reviewedAt := none, submittedAt := 40 }

/-- A store whose only request belongs to a student with no
department. -/
def noDeptDB : DB := ⟨[noDeptStudent], [noDeptRequest], [], []⟩

/-- A store with one activity log row, for exercising the activity-log
reader. -/
def logDB : DB :=
  ⟨[tAdvisor, csStudent, hodUser, adminUser], [pendingRequest], [cseAssignment],
   [{ id := "al1", leaveRequestId := "r1", actionBy := "t1",
      action := LeaveStatus.approved, department := some Department.CSE,
      year := some 3, actionAt := 9 }]⟩

/-! ### Helper lemmas -/

theorem sqlEqOpt_none_right {α : Type} [BEq α] (a : Option α) :
    sqlEqOpt a (none : Option α) = false := by
  cases a <;> rfl

theorem sqlEqOpt_eq_true {α : Type} [BEq α] [LawfulBEq α] {a b : Option α} :
    sqlEqOpt a b = true ↔ ∃ x, a = some x ∧ b = some x := by
  cases a with
  | none => simp [sqlEqOpt]
  | some x =>
    cases b with
    | none => simp [sqlEqOpt]
    | some y =>
      simp only [sqlEqOpt, beq_iff_eq, Option.some.injEq]
      constructor
      · intro h
        exact ⟨x, rfl, h.symm⟩
      · rintro ⟨z, h1, h2⟩
        rw [h1, h2]

theorem mem_joinWithStudent {db : DB} {lr : LeaveRequest} {u : User} :
    (lr, u) ∈ joinWithStudent db ↔
      lr ∈ db.leaveRequests ∧ u ∈ db.users ∧ lr.studentId = u.id := by
  simp only [joinWithStudent, List.mem_flatMap, List.mem_map, List.mem_filter,
    Prod.mk.injEq, beq_iff_eq]
  constructor
  · rintro ⟨lr1, hlr1, u1, ⟨hu1, hsid⟩, h1, h2⟩
    subst h1; subst h2
    exact ⟨hlr1, hu1, hsid⟩
  · rintro ⟨hlr, hu, hsid⟩
    exact ⟨lr, hlr, u, ⟨hu, hsid⟩, rfl, rfl⟩

theorem getPending_admin {db : DB} {rid : String} {r : User}
    (hr : getUser db rid = some r) (hrole : r.role = Role.admin) :
    getPendingLeaveRequestsForReviewer db rid =
      ((joinWithStudent db).filter
        (fun p => p.1.status == LeaveStatus.pending)).mergeSort submittedAtDesc := by
  unfold getPendingLeaveRequestsForReviewer
  rw [hr]
  simp [hrole]

theorem getPending_hod {db : DB} {rid : String} {r : User}
    (hr : getUser db rid = some r) (hrole : r.role = Role.hod) :
    getPendingLeaveRequestsForReviewer db rid =
      ((joinWithStudent db).filter
        (fun p => p.1.status == LeaveStatus.pending
          && sqlEqOpt p.2.department r.department)).mergeSort submittedAtDesc := by
  unfold getPendingLeaveRequestsForReviewer
  rw [hr]
  simp [hrole]

theorem getPending_teacher {db : DB} {rid : String} {r : User}
    (hr : getUser db rid = some r) (hrole : r.role = Role.teacher) :
    getPendingLeaveRequestsForReviewer db rid =
      (if (teacherAssignments db rid).isEmpty then []
       else ((joinWithStudent db).filter
        (fun p => p.1.status == LeaveStatus.pending
          && (teacherAssignments db rid).any (matchesAssignment p.2))).mergeSort
          submittedAtDesc) := by
  unfold getPendingLeaveRequestsForReviewer
  rw [hr]
  simp [hrole]

theorem getPending_student {db : DB} {rid : String} {r : User}
    (hr : getUser db rid = some r) (hrole : r.role = Role.student) :
    getPendingLeaveRequestsForReviewer db rid = [] := by
  unfold getPendingLeaveRequestsForReviewer
  rw [hr]
  simp [hrole]

theorem submittedAtDesc_trans (a b c : LeaveRequest × User) :
    submittedAtDesc a b → submittedAtDesc b c → submittedAtDesc a c := by
  simp only [submittedAtDesc, decide_eq_true_eq]
  omega

theorem submittedAtDesc_total (a b : LeaveRequest × User) :
    submittedAtDesc a b || submittedAtDesc b a := by
  simp only [submittedAtDesc, Bool.or_eq_true, decide_eq_true_eq]
  omega

/-! ### Claims about getPendingLeaveRequestsForReviewer -/

/-- C1: for a teacher reviewer, every returned request is pending and
its student matches the (department, year) of some assignment listing
that teacher as class advisor; every pending request of a matching
student is returned; and a teacher with no assignments gets []. -/
theorem c1_teacher_scope (db : DB) (tid : String) (t : User)
    (hr : getUser db tid = some t) (hrole : t.role = Role.teacher) :
    (∀ p ∈ getPendingLeaveRequestsForReviewer db tid,
      p.1.status = LeaveStatus.pending ∧
      ∃ a ∈ db.departmentAssignments, a.classAdvisorId = some tid ∧
        p.2.department = some a.department ∧ p.2.year = some a.year) ∧
    (∀ lr ∈ db.leaveRequests, ∀ u ∈ db.users, lr.studentId = u.id →
      lr.status = LeaveStatus.pending →
      (∃ a ∈ db.departmentAssignments, a.classAdvisorId = some tid ∧
        u.department = some a.department ∧ u.year = some a.year) →
      (lr, u) ∈ getPendingLeaveRequestsForReviewer db tid) ∧
    (teacherAssignments db tid = [] →
      getPendingLeaveRequestsForReviewer db tid = []) := by
  refine ⟨?_, ?_, ?_⟩
  · intro p hp
    rw [getPending_teacher hr hrole] at hp
    by_cases he : (teacherAssignments db tid).isEmpty
    · rw [if_pos he] at hp
      cases hp
    · rw [if_neg he, List.mem_mergeSort, List.mem_filter] at hp
      obtain ⟨_, hpred⟩ := hp
      rw [Bool.and_eq_true, beq_iff_eq, List.any_eq_true] at hpred
      obtain ⟨hstat, a, ha, hmatch⟩ := hpred
      rw [teacherAssignments, List.mem_filter, beq_iff_eq] at ha
      obtain ⟨haa, hadv⟩ := ha
      rw [matchesAssignment, Bool.and_eq_true, sqlEqOpt_eq_true, sqlEqOpt_eq_true]
        at hmatch
      obtain ⟨⟨d, hd1, hd2⟩, ⟨y, hy1, hy2⟩⟩ := hmatch
      rw [Option.some.injEq] at hd2 hy2
      exact ⟨hstat, a, haa, hadv, by rw [hd1, hd2], by rw [hy1, hy2]⟩
  · rintro lr hlr u hu hsid hstat ⟨a, ha, hadv, hdep, hyear⟩
    have hamem : a ∈ teacherAssignments db tid := by
      rw [teacherAssignments, List.mem_filter, beq_iff_eq]
      exact ⟨ha, hadv⟩
    have hne : ¬(teacherAssignments db tid).isEmpty := by
      intro h
      rw [List.isEmpty_iff] at h
      rw [h] at hamem
      cases hamem
    rw [getPending_teacher hr hrole, if_neg hne, List.mem_mergeSort, List.mem_filter]
    refine ⟨mem_joinWithStudent.mpr ⟨hlr, hu, hsid⟩, ?_⟩
    rw [Bool.and_eq_true, beq_iff_eq, List.any_eq_true]
    refine ⟨hstat, a, hamem, ?_⟩
    rw [matchesAssignment, Bool.and_eq_true, sqlEqOpt_eq_true, sqlEqOpt_eq_true]
    exact ⟨⟨a.department, hdep, rfl⟩, ⟨a.year, hyear, rfl⟩⟩
  · intro hempty
    rw [getPending_teacher hr hrole, hempty]
    simp

/-- C2: for an hod reviewer, every returned request is pending and its
student department equals the hod department (in particular it is
recorded); students with no department never appear. -/
theorem c2_hod_scope (db : DB) (rid : String) (r : User)
    (hr : getUser db rid = some r) (hrole : r.role = Role.hod) :
    ∀ p ∈ getPendingLeaveRequestsForReviewer db rid,
      p.1.status = LeaveStatus.pending ∧
      p.2.department = r.department ∧ p.2.department ≠ none := by
  intro p hp
  rw [getPending_hod hr hrole, List.mem_mergeSort, List.mem_filter] at hp
  obtain ⟨_, hpred⟩ := hp
  rw [Bool.and_eq_true, beq_iff_eq, sqlEqOpt_eq_true] at hpred
  obtain ⟨hstat, d, hd1, hd2⟩ := hpred
  refine ⟨hstat, by rw [hd1, hd2], by rw [hd1]; exact Option.noConfusion⟩

/-- C3: for an admin reviewer, the result contains a joined pair
exactly when it is a pending request with its student row, it is a
permutation of the pending part of the join, and it is ordered by
descending submission timestamp. -/
theorem c3_admin_all_pending (db : DB) (aid : String) (a : User)
    (hr : getUser db aid = some a) (hrole : a.role = Role.admin) :
    (∀ lr u, (lr, u) ∈ getPendingLeaveRequestsForReviewer db aid ↔
      lr ∈ db.leaveRequests ∧ u ∈ db.users ∧ lr.studentId = u.id ∧
        lr.status = LeaveStatus.pending) ∧
    (getPendingLeaveRequestsForReviewer db aid).Perm
      ((joinWithStudent db).filter (fun p => p.1.status == LeaveStatus.pending)) ∧
    (getPendingLeaveRequestsForReviewer db aid).Pairwise
      (fun p q => q.1.submittedAt ≤ p.1.submittedAt) := by
  refine ⟨?_, ?_, ?_⟩
  · intro lr u
    rw [getPending_admin hr hrole, List.mem_mergeSort, List.mem_filter,
      mem_joinWithStudent, beq_iff_eq]
    tauto
  · rw [getPending_admin hr hrole]
    exact List.mergeSort_perm _ _
  · rw [getPending_admin hr hrole]
    have hs := List.sorted_mergeSort submittedAtDesc_trans submittedAtDesc_total
      ((joinWithStudent db).filter (fun p => p.1.status == LeaveStatus.pending))
    exact hs.imp (fun h => by
      simpa only [submittedAtDesc, decide_eq_true_eq] using h)

/-- C7: the resolver signals no error: a student reviewer gets [], an
hod with no department gets [], and a teacher with no assignments
gets []. -/
theorem c7_safe_empty_results (db : DB) (rid : String) (r : User)
    (hr : getUser db rid = some r) :
    (r.role ≠ Role.teacher → r.role ≠ Role.hod → r.role ≠ Role.admin →
      getPendingLeaveRequestsForReviewer db rid = []) ∧
    (r.role = Role.hod → r.department = none →
      getPendingLeaveRequestsForReviewer db rid = []) ∧
    (r.role = Role.teacher → teacherAssignments db rid = [] →
      getPendingLeaveRequestsForReviewer db rid = []) := by
  refine ⟨?_, ?_, ?_⟩
  · intro h1 h2 h3
    cases hrole : r.role with
    | student => exact getPending_student hr hrole
    | teacher => exact absurd hrole h1
    | hod => exact absurd hrole h2
    | admin => exact absurd hrole h3
  · intro hrole hdep
    rw [getPending_hod hr hrole, hdep]
    have : ((joinWithStudent db).filter (fun p =>
        p.1.status == LeaveStatus.pending && sqlEqOpt p.2.department none)) = [] := by
      rw [List.filter_eq_nil_iff]
      intro p _
      rw [sqlEqOpt_none_right, Bool.and_false]
      exact Bool.false_ne_true
    rw [this]
    simp
  · intro hrole hempty
    rw [getPending_teacher hr hrole, hempty]
    simp

/-- Witness for C1: in sampleDB the pending CSE/3 request is returned
to its class advisor. -/
theorem c1_teacher_scope_witness :
    (pendingRequest, csStudent) ∈ getPendingLeaveRequestsForReviewer sampleDB "t1" :=
  (c1_teacher_scope sampleDB "t1" tAdvisor rfl rfl).2.1 pendingRequest (by decide)
    csStudent (by decide) rfl rfl ⟨cseAssignment, by decide, rfl, rfl, rfl⟩

/-- Witness for C2: the request returned to the CSE hod is pending and
from a CSE student. -/
theorem c2_hod_scope_witness :
    pendingRequest.status = LeaveStatus.pending ∧
    csStudent.department = hodUser.department ∧ csStudent.department ≠ none :=
  c2_hod_scope sampleDB "h1" hodUser rfl rfl (pendingRequest, csStudent)
    (by rw [@getPending_hod sampleDB "h1" hodUser rfl rfl, List.mem_mergeSort]
        decide)

/-- Witness for C3: the admin sees the pending request of sampleDB. -/
theorem c3_admin_all_pending_witness :
    (pendingRequest, csStudent) ∈ getPendingLeaveRequestsForReviewer sampleDB "a1" :=
  ((c3_admin_all_pending sampleDB "a1" adminUser rfl rfl).1 pendingRequest
    csStudent).mpr ⟨by decide, by decide, rfl, rfl⟩

/-- Witness for C7: a student reviewer gets the empty list. -/
theorem c7_safe_empty_results_witness :
    getPendingLeaveRequestsForReviewer sampleDB "s1" = [] :=
  (c7_safe_empty_results sampleDB "s1" csStudent rfl).1 (by decide) (by decide)
    (by decide)

/-! ### Lemmas about updateLeaveRequestStatus -/

theorem applyStatusUpdate_id (i : String) (st : LeaveStatus) (rid : String)
    (now : Nat) (lr : LeaveRequest) :
    (applyStatusUpdate i st rid now lr).id = lr.id := by
  rw [applyStatusUpdate]
  split <;> rfl

theorem applyStatusUpdate_studentId (i : String) (st : LeaveStatus) (rid : String)
    (now : Nat) (lr : LeaveRequest) :
    (applyStatusUpdate i st rid now lr).studentId = lr.studentId := by
  rw [applyStatusUpdate]
  split <;> rfl

theorem mem_updated_filter {rows : List LeaveRequest} {i : String}
    {st : LeaveStatus} {rid : String} {now : Nat} {r : LeaveRequest}
    (hr : r ∈ (rows.map (applyStatusUpdate i st rid now)).filter
      (fun lr => lr.id == i)) :
    r.id = i ∧ r.status = st ∧ r.reviewedBy = some rid ∧ r.reviewedAt = some now := by
  rw [List.mem_filter, List.mem_map, beq_iff_eq] at hr
  obtain ⟨⟨lr0, hlr0, heq⟩, hid⟩ := hr
  subst heq
  cases hc : (lr0.id == i) with
  | true =>
    simp only [applyStatusUpdate, hc, if_true] at hid ⊢
    exact ⟨hid, trivial, trivial, trivial⟩
  | false =>
    simp only [applyStatusUpdate, hc, if_false] at hid
    rw [beq_eq_false_iff_ne] at hc
    exact absurd hid hc

/-- When no leave request carries the id, the update is a no-op
returning undefined. -/
theorem update_notFound (db : DB) (now : Nat) (logId i : String)
    (st : LeaveStatus) (rid : String)
    (h : ∀ lr ∈ db.leaveRequests, lr.id ≠ i) :
    updateLeaveRequestStatus db now logId i st rid = (none, db) := by
  have hnil : (joinWithStudent db).filter (fun p => p.1.id == i) = [] := by
    rw [List.filter_eq_nil_iff]
    intro p hp
    obtain ⟨plr, pu⟩ := p
    obtain ⟨hmem, _, _⟩ := mem_joinWithStudent.mp hp
    simp only [beq_iff_eq]
    exact h plr hmem
  unfold updateLeaveRequestStatus
  rw [hnil]
  rfl

/-- Shape of a found update: the first component is the first updated
row, the users and leave rows of the new store, and the appended
activity-log segment. -/
theorem update_found_proj (db : DB) (now : Nat) (logId i : String)
    (st : LeaveStatus) (rid : String) (plr : LeaveRequest) (pu : User)
    (hhead : ((joinWithStudent db).filter (fun p => p.1.id == i)).head? =
      some (plr, pu)) :
    (updateLeaveRequestStatus db now logId i st rid).1 =
      ((db.leaveRequests.map (applyStatusUpdate i st rid now)).filter
        (fun lr => lr.id == i)).head? ∧
    (updateLeaveRequestStatus db now logId i st rid).2.users = db.users ∧
    (updateLeaveRequestStatus db now logId i st rid).2.departmentAssignments =
      db.departmentAssignments ∧
    (updateLeaveRequestStatus db now logId i st rid).2.leaveRequests =
      db.leaveRequests.map (applyStatusUpdate i st rid now) ∧
    (updateLeaveRequestStatus db now logId i st rid).2.activityLogs =
      db.activityLogs ++
        (if (((db.leaveRequests.map (applyStatusUpdate i st rid now)).filter
            (fun lr => lr.id == i)).head?).isSome
            && pu.department.isSome && jsTruthyYear pu.year then
          [{ id := logId, leaveRequestId := i, actionBy := rid, action := st,
             department := pu.department, year := pu.year, actionAt := now }]
        else []) := by
  unfold updateLeaveRequestStatus
  rw [hhead]
  dsimp only
  refine ⟨?_, ?_, ?_, ?_, ?_⟩
  · split <;> rfl
  · split <;> rfl
  · split <;> rfl
  · split <;> rfl
  · split
    · rfl
    · rw [List.append_nil]

/-- A found update succeeds and stamps status, reviewer and review
time on the returned row. -/
theorem update_success (db : DB) (now : Nat) (logId i : String)
    (st : LeaveStatus) (rid : String) {lr : LeaveRequest} {u : User}
    (hlr : lr ∈ db.leaveRequests) (hid : lr.id = i)
    (hu : u ∈ db.users) (hsid : lr.studentId = u.id) :
    ∃ r, (updateLeaveRequestStatus db now logId i st rid).1 = some r ∧
      r.id = i ∧ r.status = st ∧ r.reviewedBy = some rid ∧
      r.reviewedAt = some now ∧
      (updateLeaveRequestStatus db now logId i st rid).2.users = db.users ∧
      (updateLeaveRequestStatus db now logId i st rid).2.leaveRequests =
        db.leaveRequests.map (applyStatusUpdate i st rid now) := by
  have hjmem : (lr, u) ∈ (joinWithStudent db).filter (fun p => p.1.id == i) :=
    List.mem_filter.mpr ⟨mem_joinWithStudent.mpr ⟨hlr, hu, hsid⟩,
      by rw [beq_iff_eq]; exact hid⟩
  obtain ⟨p0, rest, hcons⟩ :=
    List.exists_cons_of_ne_nil (List.ne_nil_of_mem hjmem)
  obtain ⟨plr, pu⟩ := p0
  have hhead : ((joinWithStudent db).filter (fun p => p.1.id == i)).head? =
      some (plr, pu) := by rw [hcons]; rfl
  obtain ⟨h1, h2, _, h4, _⟩ := update_found_proj db now logId i st rid plr pu hhead
  have hupdmem : applyStatusUpdate i st rid now lr ∈
      (db.leaveRequests.map (applyStatusUpdate i st rid now)).filter
        (fun x => x.id == i) :=
    List.mem_filter.mpr ⟨List.mem_map_of_mem _ hlr,
      by rw [beq_iff_eq, applyStatusUpdate_id]; exact hid⟩
  obtain ⟨q0, qrest, hqcons⟩ :=
    List.exists_cons_of_ne_nil (List.ne_nil_of_mem hupdmem)
  have hqhead : ((db.leaveRequests.map (applyStatusUpdate i st rid now)).filter
      (fun x => x.id == i)).head? = some q0 := by rw [hqcons]; rfl
  have hq0mem : q0 ∈ (db.leaveRequests.map (applyStatusUpdate i st rid now)).filter
      (fun x => x.id == i) := by rw [hqcons]; exact List.mem_cons_self q0 qrest
  obtain ⟨hq1, hq2, hq3, hq4⟩ := mem_updated_filter hq0mem
  exact ⟨q0, by rw [h1, hqhead], hq1, hq2, hq3, hq4, h2, h4⟩

/-- C4: an unknown request id yields undefined and leaves the store
untouched; with referential integrity of studentId an existing id never
yields the not-found outcome. -/
theorem c4_not_found_outcome (db : DB) (now : Nat) (logId i : String)
    (st : LeaveStatus) (rid : String) :
    ((∀ lr ∈ db.leaveRequests, lr.id ≠ i) →
      updateLeaveRequestStatus db now logId i st rid = (none, db)) ∧
    ((∀ lr ∈ db.leaveRequests, ∃ u ∈ db.users, lr.studentId = u.id) →
      ∀ lr ∈ db.leaveRequests, lr.id = i →
      (updateLeaveRequestStatus db now logId i st rid).1 ≠ none) := by
  constructor
  · exact update_notFound db now logId i st rid
  · intro hfk lr hlr hid
    obtain ⟨u, hu, hsid⟩ := hfk lr hlr
    obtain ⟨r, hr, _⟩ := update_success db now logId i st rid hlr hid hu hsid
    rw [hr]
    exact Option.noConfusion

/-- Witness for C4: in sampleDB an unknown id is a no-op and the known
id is found. -/
theorem c4_not_found_outcome_witness :
    updateLeaveRequestStatus sampleDB 7 "log1" "zzz" LeaveStatus.approved "t1" =
      (none, sampleDB) ∧
    (updateLeaveRequestStatus sampleDB 7 "log1" "r1" LeaveStatus.approved "t1").1 ≠
      none :=
  ⟨(c4_not_found_outcome sampleDB 7 "log1" "zzz" LeaveStatus.approved "t1").1
      (by decide),
   (c4_not_found_outcome sampleDB 7 "log1" "r1" LeaveStatus.approved "t1").2
      (by decide) pendingRequest (by decide) rfl⟩

/-- C5 counterexample: updating the pending request of a student with
no recorded department succeeds yet appends no activity-log row. -/
theorem c5_no_log_counterexample :
    ((updateLeaveRequestStatus noDeptDB 7 "log1" "r2" LeaveStatus.approved
      "t9").1).isSome = true ∧
    (updateLeaveRequestStatus noDeptDB 7 "log1" "r2" LeaveStatus.approved
      "t9").2.activityLogs = [] := by
  constructor <;> rfl

/-- C5 amended: a found update appends exactly one activity-log row
when the joined student has a non-null department and a truthy
(non-null, nonzero) year, and appends nothing otherwise; the existing
rows are preserved unchanged in place. -/
theorem c5_activity_log_appended (db : DB) (now : Nat) (logId i : String)
    (st : LeaveStatus) (rid : String) (plr : LeaveRequest) (pu : User)
    (hhead : ((joinWithStudent db).filter (fun p => p.1.id == i)).head? =
      some (plr, pu)) :
    (updateLeaveRequestStatus db now logId i st rid).2.activityLogs =
      db.activityLogs ++
        (if pu.department.isSome && jsTruthyYear pu.year then
          [{ id := logId, leaveRequestId := i, actionBy := rid, action := st,
             department := pu.department, year := pu.year, actionAt := now }]
        else []) := by
  have hpmem : (plr, pu) ∈ (joinWithStudent db).filter (fun p => p.1.id == i) :=
    List.mem_of_mem_head? hhead
  have hplr : plr ∈ db.leaveRequests :=
    (mem_joinWithStudent.mp (List.mem_filter.mp hpmem).1).1
  have hpid : plr.id = i := by
    have := (List.mem_filter.mp hpmem).2
    rwa [beq_iff_eq] at this
  have hupdmem : applyStatusUpdate i st rid now plr ∈
      (db.leaveRequests.map (applyStatusUpdate i st rid now)).filter
        (fun x => x.id == i) :=
    List.mem_filter.mpr ⟨List.mem_map_of_mem _ hplr,
      by rw [beq_iff_eq, applyStatusUpdate_id]; exact hpid⟩
  have hsome : (((db.leaveRequests.map (applyStatusUpdate i st rid now)).filter
      (fun x => x.id == i)).head?).isSome = true := by
    rw [List.head?_isSome]
    exact List.ne_nil_of_mem hupdmem
  obtain ⟨_, _, _, _, h5⟩ := update_found_proj db now logId i st rid plr pu hhead
  rw [h5, hsome, Bool.true_and]

/-- Witness for the amended C5: updating the CSE/3 student request in
sampleDB appends the snapshot row. -/
theorem c5_activity_log_appended_witness :
    (updateLeaveRequestStatus sampleDB 7 "log1" "r1" LeaveStatus.approved
      "t1").2.activityLogs =
      sampleDB.activityLogs ++
        (if csStudent.department.isSome && jsTruthyYear csStudent.year then
          [{ id := "log1", leaveRequestId := "r1", actionBy := "t1",
             action := LeaveStatus.approved, department := csStudent.department,
             year := csStudent.year, actionAt := 7 }]
        else []) :=
  c5_activity_log_appended sampleDB 7 "log1" "r1" LeaveStatus.approved "t1"
    pendingRequest csStudent rfl

/-- C6: approving a pending request stamps reviewer R and time t1; a
later rejection by R2 succeeds and overwrites reviewer and time
(last-writer-wins). -/
theorem c6_last_writer_wins (db : DB) (t1 t2 : Nat) (lid1 lid2 i R R2 : String)
    (lr : LeaveRequest) (hlr : lr ∈ db.leaveRequests) (hid : lr.id = i)
    (hpend : lr.status = LeaveStatus.pending)
    (u : User) (hu : u ∈ db.users) (hsid : lr.studentId = u.id) :
    ∃ r1 r2,
      (updateLeaveRequestStatus db t1 lid1 i LeaveStatus.approved R).1 = some r1 ∧
      r1.status = LeaveStatus.approved ∧ r1.reviewedBy = some R ∧
      r1.reviewedAt = some t1 ∧
      (updateLeaveRequestStatus
        (updateLeaveRequestStatus db t1 lid1 i LeaveStatus.approved R).2
        t2 lid2 i LeaveStatus.rejected R2).1 = some r2 ∧
      r2.status = LeaveStatus.rejected ∧ r2.reviewedBy = some R2 ∧
      r2.reviewedAt = some t2 := by
  obtain ⟨r1, hr1, _, hst1, hby1, hat1, husers, hrows⟩ :=
    update_success db t1 lid1 i LeaveStatus.approved R hlr hid hu hsid
  have hlr1 : applyStatusUpdate i LeaveStatus.approved R t1 lr ∈
      (updateLeaveRequestStatus db t1 lid1 i LeaveStatus.approved R).2.leaveRequests := by
    rw [hrows]
    exact List.mem_map_of_mem _ hlr
  have hu1 : u ∈ (updateLeaveRequestStatus db t1 lid1 i
      LeaveStatus.approved R).2.users := by
    rw [husers]
    exact hu
  obtain ⟨r2, hr2, _, hst2, hby2, hat2, _, _⟩ :=
    update_success _ t2 lid2 i LeaveStatus.rejected R2 hlr1
      (by rw [applyStatusUpdate_id]; exact hid) hu1
      (by rw [applyStatusUpdate_studentId]; exact hsid)
  exact ⟨r1, r2, hr1, hst1, hby1, hat1, hr2, hst2, hby2, hat2⟩

/-- Witness for C6: the double review on sampleDB. -/
theorem c6_last_writer_wins_witness :
    ∃ r1 r2,
      (updateLeaveRequestStatus sampleDB 7 "log1" "r1" LeaveStatus.approved
        "t1").1 = some r1 ∧
      r1.status = LeaveStatus.approved ∧ r1.reviewedBy = some "t1" ∧
      r1.reviewedAt = some 7 ∧
      (updateLeaveRequestStatus
        (updateLeaveRequestStatus sampleDB 7 "log1" "r1" LeaveStatus.approved
          "t1").2 9 "log2" "r1" LeaveStatus.rejected "h1").1 = some r2 ∧
      r2.status = LeaveStatus.rejected ∧ r2.reviewedBy = some "h1" ∧
      r2.reviewedAt = some 9 :=
  c6_last_writer_wins sampleDB 7 9 "log1" "log2" "r1" "t1" "h1" pendingRequest
    (by decide) rfl rfl csStudent (by decide) rfl

/-! ### Lemmas about the API step relation -/

theorem applyStatusUpdate_inv (i : String) (st : LeaveStatus) (rid : String)
    (now : Nat) (hst : st ≠ LeaveStatus.pending) (lr : LeaveRequest)
    (h : lr.status = LeaveStatus.pending ↔
      lr.reviewedBy = none ∧ lr.reviewedAt = none) :
    ((applyStatusUpdate i st rid now lr).status = LeaveStatus.pending ↔
      (applyStatusUpdate i st rid now lr).reviewedBy = none ∧
      (applyStatusUpdate i st rid now lr).reviewedAt = none) := by
  rw [applyStatusUpdate]
  split
  · simp [hst]
  · exact h

/-- The state left by the update: untouched, or the row map. -/
theorem update_state (db : DB) (now : Nat) (logId i : String)
    (st : LeaveStatus) (rid : String) :
    (updateLeaveRequestStatus db now logId i st rid).2 = db ∨
    (updateLeaveRequestStatus db now logId i st rid).2.leaveRequests =
      db.leaveRequests.map (applyStatusUpdate i st rid now) := by
  unfold updateLeaveRequestStatus
  cases hh : ((joinWithStudent db).filter (fun p => p.1.id == i)).head? with
  | none => left; rfl
  | some p =>
    obtain ⟨plr, pu⟩ := p
    right
    dsimp only
    split <;> rfl

/-- The state left by the patch route: untouched, or the row map for a
non-pending status. -/
theorem routePatchStatus_state (db : DB) (now : Nat) (logId : String)
    (su : Option User) (reqId : String) (st : LeaveStatus) :
    (routePatchStatus db now logId su reqId st).2 = db ∨
    (st ≠ LeaveStatus.pending ∧ ∃ rid,
      (routePatchStatus db now logId su reqId st).2.leaveRequests =
        db.leaveRequests.map (applyStatusUpdate reqId st rid now)) := by
  cases su with
  | none => left; rfl
  | some u =>
    unfold routePatchStatus
    cases hallow : reviewerRoleAllowed u.role with
    | false => left; simp [hallow]
    | true =>
      by_cases hst : st = LeaveStatus.pending
      · left; simp [hallow, hst]
      · rcases update_state db now logId reqId st u.id with hdb | hmap
        · left; simp [hallow, hst, hdb]
        · right
          refine ⟨hst, u.id, ?_⟩
          simp only [hallow, if_true, if_neg hst]
          exact hmap

theorem apiStep_inv {db db1 : DB} (h : ApiStep db db1)
    (hinv : ReviewInvariant db) : ReviewInvariant db1 := by
  cases h with
  | create now newId sid ty f t reason hfresh =>
    intro lr hlr
    simp only [createLeaveRequestApi, List.mem_append, List.mem_singleton] at hlr
    cases hlr with
    | inl h0 => exact hinv lr h0
    | inr h0 =>
      subst h0
      simp
  | patch now logId su reqId st =>
    rcases routePatchStatus_state db now logId su reqId st with heq | ⟨hst, rid, heq⟩
    · rw [ReviewInvariant, heq]
      exact hinv
    · intro lr hlr
      rw [heq, List.mem_map] at hlr
      obtain ⟨lr0, hlr0, rfl⟩ := hlr
      exact applyStatusUpdate_inv _ _ _ _ hst lr0 (hinv lr0 hlr0)
  | admin users1 asg1 logs1 => exact hinv

theorem reachable_inv {db : DB} (h : Reachable db) : ReviewInvariant db := by
  induction h with
  | refl => intro lr hlr; cases hlr
  | tail _ hstep ih => exact apiStep_inv hstep ih

theorem uniqueIds_eq {db : DB} (hu : UniqueIds db) {a b : LeaveRequest}
    (ha : a ∈ db.leaveRequests) (hb : b ∈ db.leaveRequests)
    (hid : a.id = b.id) : a = b := by
  by_contra hne
  exact (hu.forall (by intro x y hxy e; exact hxy e.symm) ha hb hne) hid

theorem apiStep_unique {db db1 : DB} (h : ApiStep db db1)
    (hu : UniqueIds db) : UniqueIds db1 := by
  cases h with
  | create now newId sid ty f t reason hfresh =>
    rw [UniqueIds]
    simp only [createLeaveRequestApi]
    rw [List.pairwise_append]
    refine ⟨hu, by simp, ?_⟩
    intro a ha b hb
    rw [List.mem_singleton] at hb
    subst hb
    exact hfresh a ha
  | patch now logId su reqId st =>
    rcases routePatchStatus_state db now logId su reqId st with heq | ⟨_, rid, heq⟩
    · rw [UniqueIds, heq]
      exact hu
    · rw [UniqueIds, heq, List.pairwise_map]
      refine hu.imp ?_
      intro a b hab
      rw [applyStatusUpdate_id, applyStatusUpdate_id]
      exact hab
  | admin users1 asg1 logs1 => exact hu

theorem reachable_uniqueIds {db : DB} (h : Reachable db) : UniqueIds db := by
  induction h with
  | refl => exact List.Pairwise.nil
  | tail _ hstep ih => exact apiStep_unique hstep ih

theorem apiStep_noRevert {db db1 : DB} (h : ApiStep db db1)
    (hu : UniqueIds db) : NoRevert db db1 := by
  cases h with
  | create now newId sid ty f t reason hfresh =>
    intro lr hlr hst lr1 hlr1 hid
    simp only [createLeaveRequestApi, List.mem_append, List.mem_singleton] at hlr1
    cases hlr1 with
    | inl h0 =>
      rw [uniqueIds_eq hu h0 hlr hid]
      exact hst
    | inr h0 =>
      subst h0
      exact absurd hid.symm (hfresh lr hlr)
  | patch now logId su reqId st =>
    rcases routePatchStatus_state db now logId su reqId st with heq | ⟨hstp, rid, heq⟩
    · intro lr hlr hst lr1 hlr1 hid
      rw [heq] at hlr1
      rw [uniqueIds_eq hu hlr1 hlr hid]
      exact hst
    · intro lr hlr hst lr1 hlr1 hid
      rw [heq, List.mem_map] at hlr1
      obtain ⟨lr0, hlr0, rfl⟩ := hlr1
      rw [applyStatusUpdate_id] at hid
      rw [uniqueIds_eq hu hlr0 hlr hid]
      rw [applyStatusUpdate]
      split
      · exact hstp
      · exact hst
  | admin users1 asg1 logs1 =>
    intro lr hlr hst lr1 hlr1 hid
    rw [uniqueIds_eq hu hlr1 hlr hid]
    exact hst

/-- C8: through the API a leave request is created pending with null
reviewer fields, every reachable store satisfies the review invariant
(reviewer and review time are null exactly on pending requests), and no
API step reverts a non-pending request to pending. -/
theorem c8_status_lifecycle :
    (∀ (db : DB) (now : Nat) (newId sid : String) (ty : LeaveType)
      (f t : Nat) (reason : String),
      (createLeaveRequestApi db now newId sid ty f t reason).1.status =
        LeaveStatus.pending ∧
      (createLeaveRequestApi db now newId sid ty f t reason).1.reviewedBy = none ∧
      (createLeaveRequestApi db now newId sid ty f t reason).1.reviewedAt = none) ∧
    (∀ db, Reachable db → ReviewInvariant db) ∧
    (∀ db db1, Reachable db → ApiStep db db1 → NoRevert db db1) := by
  refine ⟨?_, ?_, ?_⟩
  · intro db now newId sid ty f t reason
    exact ⟨rfl, rfl, rfl⟩
  · intro db h
    exact reachable_inv h
  · intro db db1 h hstep
    exact apiStep_noRevert hstep (reachable_uniqueIds h)

/-- Witness for C8: the store after one creation step satisfies the
invariant. -/
theorem c8_status_lifecycle_witness :
    ReviewInvariant
      (createLeaveRequestApi emptyDB 5 "r1" "s1" LeaveType.sick 10 20 "x").2 :=
  c8_status_lifecycle.2.1 _
    (Relation.ReflTransGen.single
      (ApiStep.create emptyDB 5 "r1" "s1" LeaveType.sick 10 20 "x"
        (by intro lr h; cases h)))

/-! ### Activity-log reader and route guards -/

/-- C9: the admin branch of getActivityLogsForReviewer joins the users
table twice with no alias; the query layer rejects the duplicate table,
so an admin reviewer gets an error rather than the complete log list. -/
theorem c9_admin_activity_error :
    getActivityLogsForReviewer logDB "a1" =
      Except.error "alias users is already used in this query" := rfl

/-- C10: the pending, recent and status-patch routes answer 403 to any
authenticated session whose role is neither teacher nor hod, so the
admin branch of the resolver is unreachable from them. -/
theorem c10_reviewer_routes_deny_others (db : DB) (now : Nat) (logId : String)
    (u : User) (reqId : String) (st : LeaveStatus)
    (h1 : u.role ≠ Role.teacher) (h2 : u.role ≠ Role.hod) :
    routePendingRequests db (some u) = RouteResult.denied 403 ∧
    routeRecentRequests db now (some u) = RouteResult.denied 403 ∧
    routePatchStatus db now logId (some u) reqId st =
      (RouteResult.denied 403, db) := by
  have hfalse : reviewerRoleAllowed u.role = false := by
    rw [reviewerRoleAllowed]
    cases hrole : u.role with
    | student => rfl
    | teacher => exact absurd hrole h1
    | hod => exact absurd hrole h2
    | admin => rfl
  refine ⟨?_, ?_, ?_⟩ <;>
    simp [routePendingRequests, routeRecentRequests, routePatchStatus, hfalse]

/-- Witness for C10: the admin session is denied on all three routes. -/
theorem c10_reviewer_routes_deny_others_witness :
    routePendingRequests sampleDB (some adminUser) = RouteResult.denied 403 ∧
    routeRecentRequests sampleDB 0 (some adminUser) = RouteResult.denied 403 ∧
    routePatchStatus sampleDB 0 "log1" (some adminUser) "r1"
      LeaveStatus.approved = (RouteResult.denied 403, sampleDB) :=
  c10_reviewer_routes_deny_others sampleDB 0 "log1" adminUser "r1"
    LeaveStatus.approved (by decide) (by decide)

end LeaveFlow
